import Mathlib

/-
  Verification development for the CryptID IBE/ABE core
  (src/src/CryptID_ABE.c, which also carries the Boneh-Franklin IBE
  implementation after the file separator, plus the headers under
  src/include).

  Shallow embedding conventions:
  * The arbitrary-precision arithmetic, complex field, elliptic curve,
    Tate pairing, hashing and randomness backends are present in the
    repository only through their headers; following the specification,
    points of the order-q subgroup are represented by their discrete
    logarithm with respect to a fixed generator (an element of ZMod q),
    and the pairing target group (the order-q subgroup of the
    multiplicative group of F_p^2) is represented by exponents as well,
    so that complex_modMul becomes addition of exponents only where the
    specification forces it; each such definition carries a doc comment
    starting with "Modelled from the spec:".
  * Byte strings are lists of naturals; the C loops that combine byte
    buffers index-by-index are embedded by the helpers copyN and xorN,
    which read position i with a default of 0 (a C out-of-range read is
    undefined; the default never matters under the length side
    conditions the code maintains).
  * Fallible C functions returning a CryptidStatus with an out
    parameter are embedded as Except CryptidStatus values.
-/

namespace CryptidModel

/-- Status enum of the library (include/util/Status.h is absent from src;
constructors follow the names used by the code in src and by the spec,
section 7). -/
inductive CryptidStatus where
  | CRYPTID_SUCCESS
  | CRYPTID_MESSAGE_NULL_ERROR
  | CRYPTID_MESSAGE_LENGTH_ERROR
  | CRYPTID_IDENTITY_NULL_ERROR
  | CRYPTID_IDENTITY_LENGTH_ERROR
  | CRYPTID_ILLEGAL_PUBLIC_PARAMETERS_ERROR
  | CRYPTID_ILLEGAL_PRIVATE_KEY_ERROR
  | CRYPTID_ILLEGAL_CIPHERTEXT_TUPLE_ERROR
  | CRYPTID_DECRYPTION_FAILED_ERROR
  | CRYPTID_SOLINAS_GENERATION_FAILED_ERROR
  | CRYPTID_POINT_GENERATION_FAILED_ERROR
  | CRYPTID_HASH_TO_POINT_FAILED_ERROR
  | CRYPTID_PAIRING_FAILED_ERROR
  | CRYPTID_RESULT_POINTER_NULL_ERROR
  deriving DecidableEq, Repr

/-- Byte strings (each entry is one octet; the embedding never needs the
upper bound 256, xor of naturals restricted to octets agrees with octet
xor). -/
abbrev Bytes := List Nat

/-- Embedding of a C copy loop `for (i = 0; i < n; i++) dst[i] = src[i]`:
position i is read with default 0. -/
def copyN (n : Nat) (b : Bytes) : Bytes :=
  (List.range n).map (fun i => b.getD i 0)

/-- Embedding of a C xor loop
`for (i = 0; i < n; i++) dst[i] = a[i] ^ b[i]`. -/
def xorN (n : Nat) (a b : Bytes) : Bytes :=
  (List.range n).map (fun i => a.getD i 0 ^^^ b.getD i 0)

theorem length_copyN (n : Nat) (b : Bytes) : (copyN n b).length = n := by
  simp [copyN]

theorem length_xorN (n : Nat) (a b : Bytes) : (xorN n a b).length = n := by
  simp [xorN]

theorem getD_copyN (n i : Nat) (b : Bytes) (h : i < n) :
    (copyN n b).getD i 0 = b.getD i 0 := by
  simp [copyN, List.getD_eq_getElem?_getD, List.getElem?_map,
    List.getElem?_range h]

theorem getD_xorN (n i : Nat) (a b : Bytes) (h : i < n) :
    (xorN n a b).getD i 0 = a.getD i 0 ^^^ b.getD i 0 := by
  simp [xorN, List.getD_eq_getElem?_getD, List.getElem?_map,
    List.getElem?_range h]

theorem copyN_copyN (n : Nat) (b : Bytes) : copyN n (copyN n b) = copyN n b := by
  unfold copyN
  refine List.map_congr_left ?_
  intro i hi
  exact getD_copyN n i b (List.mem_range.mp hi)

theorem copyN_eq_self (n : Nat) (b : Bytes) (h : b.length = n) :
    copyN n b = b := by
  apply List.ext_getElem
  · simp [length_copyN, h]
  · intro i h1 h2
    have hi : i < n := by simpa [length_copyN] using h1
    have : (copyN n b).getD i 0 = b.getD i 0 := getD_copyN n i b hi
    simpa [List.getD_eq_getElem?_getD, List.getElem?_eq_getElem, h1, h2] using this

/-- Xor with the same mask twice recovers the first n bytes. -/
theorem xorN_xorN_cancel (n : Nat) (a b : Bytes) :
    xorN n a (xorN n a b) = copyN n b := by
  unfold copyN
  unfold xorN
  refine List.map_congr_left ?_
  intro i hi
  have h := getD_xorN n i a b (List.mem_range.mp hi)
  rw [show ((List.range n).map
      (fun i => a.getD i 0 ^^^ b.getD i 0)) = xorN n a b from rfl, h]
  rw [← Nat.xor_assoc, Nat.xor_self, Nat.zero_xor]

/-!  Boneh-Franklin IBE layer (the part of src/src/CryptID_ABE.c after the
file separator, functions cryptid_setup, cryptid_extract, cryptid_encrypt,
cryptid_decrypt).  Points of the order-q subgroup are represented by their
discrete logarithm in ZMod q with respect to a fixed generator of the
subgroup; the point at infinity is 0 and affine_wNAFMultiply is
multiplication in ZMod q. -/

/-- Modelled from the spec: the hash-family backends (SHA, hashToRange,
hashToPoint, hashBytes, canonical; declared in src/include/util/Utils.h,
implementations absent from src) are deterministic pure functions, bundled
here.  hashToRange lands in [0, q), so it is an element of ZMod q;
hashToPoint returns a point of order q, represented by its discrete
logarithm; canonical serializes a pairing value (exponent-represented)
into octets. -/
structure HashContext (q : Nat) where
  hashLen : Nat
  sha_hash : Bytes → Bytes
  hashToRange : Bytes → ZMod q
  hashToPoint : Bytes → ZMod q
  hashBytes : Nat → Bytes → Bytes
  canonical : ZMod q → Bytes

/-- Modelled from the spec: the reduced Tate pairing (tate_performPairing,
implementation absent from src) is bilinear and non-degenerate on the
order-q subgroup, so in discrete-logarithm representation
e(a·G, b·G) = e(G,G)^(a·b); pairing values are represented by their
exponent with respect to e(G,G), hence the pairing of two points is the
product of their logarithms, complex_modPow by l is multiplication by l
and complex_modMul is addition of exponents. -/
def pairE {q : Nat} (a b : ZMod q) : ZMod q := a * b

/-- Public parameters of the IBE scheme (PublicParameters.h absent from src;
fields follow the code: generator pointP and pointPpublic = s·pointP, both
in discrete-logarithm representation). -/
structure PublicParameters (q : Nat) where
  pointP : ZMod q
  pointPpublic : ZMod q

/-- IBE ciphertext tuple (CipherTextTuple of the code): a point U and two
byte strings V, W. -/
structure CipherTextTuple (q : Nat) where
  cipherU : ZMod q
  cipherV : Bytes
  cipherW : Bytes

/-- Modelled from the spec: validation_isPublicParametersValid
(implementation absent from src) requires P to be a non-infinity point of
order q; in discrete-logarithm representation that is pointP being nonzero. -/
def validation_isPublicParametersValid {q : Nat} (pp : PublicParameters q) : Bool :=
  decide (pp.pointP ≠ 0)

/-- Embedding of cryptid_extract: Q_id = hashToPoint(identity), private key
is masterSecret · Q_id.  The NULL check on the result pointer is not
representable; hashToPoint is modelled total (its bounded retry failure is
part of the hash backend absent from src). -/
def cryptid_extract {q : Nat} (ctx : HashContext q) (identity : Bytes)
    (pp : PublicParameters q) (masterSecret : ZMod q) :
    Except CryptidStatus (ZMod q) :=
  if identity.length = 0 then .error .CRYPTID_IDENTITY_LENGTH_ERROR
  else if ¬ validation_isPublicParametersValid pp then
    .error .CRYPTID_ILLEGAL_PUBLIC_PARAMETERS_ERROR
  else .ok (masterSecret * ctx.hashToPoint identity)

/-- Embedding of cryptid_encrypt.  rho is the random tape consumed by
randomBytes(rho, hashLen); the message NULL check is not representable for
a Lean list, the length checks are kept.  Each C byte loop of length n is
an xorN / copyN with that n, exactly as in the source. -/
def cryptid_encrypt {q : Nat} (ctx : HashContext q) (message identity : Bytes)
    (pp : PublicParameters q) (rho : Bytes) :
    Except CryptidStatus (CipherTextTuple q) :=
  if message.length = 0 then .error .CRYPTID_MESSAGE_LENGTH_ERROR
  else if identity.length = 0 then .error .CRYPTID_IDENTITY_LENGTH_ERROR
  else if ¬ validation_isPublicParametersValid pp then
    .error .CRYPTID_ILLEGAL_PUBLIC_PARAMETERS_ERROR
  else
    let pointQId := ctx.hashToPoint identity
    let rho0 := copyN ctx.hashLen rho
    let t := ctx.sha_hash message
    let concat := copyN ctx.hashLen rho0 ++ copyN ctx.hashLen t
    let l := ctx.hashToRange concat
    let cipherPointU := l * pp.pointP
    let theta := pairE pp.pointPpublic pointQId
    let thetaPrime := l * theta
    let z := ctx.canonical thetaPrime
    let w := ctx.sha_hash z
    let cipherV := xorN ctx.hashLen w rho0
    let hashedBytes := ctx.hashBytes message.length rho0
    let cipherW := xorN message.length hashedBytes message
    .ok { cipherU := cipherPointU, cipherV := cipherV, cipherW := cipherW }

/-- The plaintext recomputed by cryptid_decrypt before its consistency
check (source lines: pairing, canonical, sha, the two xor loops). -/
def decryptRecoveredMessage {q : Nat} (ctx : HashContext q)
    (privateKey : ZMod q) (ct : CipherTextTuple q) : Bytes :=
  let theta := pairE ct.cipherU privateKey
  let z := ctx.canonical theta
  let w := ctx.sha_hash z
  let rho := xorN ctx.hashLen w ct.cipherV
  xorN ct.cipherW.length (ctx.hashBytes ct.cipherW.length rho) ct.cipherW

/-- The scalar l recomputed by cryptid_decrypt from rho and the hash of the
recovered message, used in the consistency check U = l·P. -/
def decryptCheckScalar {q : Nat} (ctx : HashContext q)
    (privateKey : ZMod q) (ct : CipherTextTuple q) : ZMod q :=
  let theta := pairE ct.cipherU privateKey
  let z := ctx.canonical theta
  let w := ctx.sha_hash z
  let rho := xorN ctx.hashLen w ct.cipherV
  let t := ctx.sha_hash (decryptRecoveredMessage ctx privateKey ct)
  ctx.hashToRange (copyN ctx.hashLen rho ++ copyN ctx.hashLen t)

/-- Embedding of cryptid_decrypt: validations, recomputation of the
message and of l, then the consistency check; on equality the message is
delivered, otherwise DECRYPTION_FAILED_ERROR and no plaintext.  The
private-key and ciphertext validations (validation_isAffinePointValid,
validation_isCipherTextTupleValid, absent from src) always hold of values
of the model types and are modelled as true. -/
def cryptid_decrypt {q : Nat} (ctx : HashContext q) (privateKey : ZMod q)
    (ct : CipherTextTuple q) (pp : PublicParameters q) :
    Except CryptidStatus Bytes :=
  if ¬ validation_isPublicParametersValid pp then
    .error .CRYPTID_ILLEGAL_PUBLIC_PARAMETERS_ERROR
  else if ct.cipherU = decryptCheckScalar ctx privateKey ct * pp.pointP then
    .ok (decryptRecoveredMessage ctx privateKey ct)
  else .error .CRYPTID_DECRYPTION_FAILED_ERROR

/-- Decrypting a ciphertext of the exact shape produced by cryptid_encrypt
recovers the message and recomputes the scalar the encryptor hashed,
provided the decryptor reproduces the same pairing value (hypothesis hw). -/
theorem ibe_decrypt_encrypt_aux {q : Nat} (ctx : HashContext q) (U sk : ZMod q)
    (rho0 message w : Bytes)
    (hr : copyN ctx.hashLen rho0 = rho0)
    (hw : ctx.sha_hash (ctx.canonical (pairE U sk)) = w) :
    decryptRecoveredMessage ctx sk
      { cipherU := U, cipherV := xorN ctx.hashLen w rho0,
        cipherW := xorN message.length (ctx.hashBytes message.length rho0) message } = message ∧
    decryptCheckScalar ctx sk
      { cipherU := U, cipherV := xorN ctx.hashLen w rho0,
        cipherW := xorN message.length (ctx.hashBytes message.length rho0) message } =
      ctx.hashToRange (copyN ctx.hashLen rho0 ++
        copyN ctx.hashLen (ctx.sha_hash message)) := by
  have hrho : xorN ctx.hashLen w (xorN ctx.hashLen w rho0) = rho0 := by
    rw [xorN_xorN_cancel, hr]
  have hWlen : (xorN message.length (ctx.hashBytes message.length rho0) message).length
      = message.length := length_xorN _ _ _
  have hrec : decryptRecoveredMessage ctx sk
      { cipherU := U, cipherV := xorN ctx.hashLen w rho0,
        cipherW := xorN message.length (ctx.hashBytes message.length rho0) message } = message := by
    unfold decryptRecoveredMessage
    simp only [hw, hrho, hWlen]
    rw [xorN_xorN_cancel, copyN_eq_self _ _ rfl]
  refine ⟨hrec, ?_⟩
  unfold decryptCheckScalar
  simp only [hw, hrho, hrec]

/-- C1: IBE round trip.  For public parameters with P_pub = s·P and P not
the point at infinity, any non-empty identity and any message of length
between 1 and 1024 bytes, decrypting with the key extracted for the
identity the ciphertext produced by encrypt returns SUCCESS with exactly
the original message. -/
theorem ibe_roundtrip {q : Nat} (ctx : HashContext q) (pp : PublicParameters q)
    (s : ZMod q) (message identity rho : Bytes)
    (hpp : pp.pointPpublic = s * pp.pointP) (hval : pp.pointP ≠ 0)
    (hM1 : 1 ≤ message.length) (hM2 : message.length ≤ 1024)
    (hid : 1 ≤ identity.length) :
    (cryptid_extract ctx identity pp s).bind (fun sk =>
      (cryptid_encrypt ctx message identity pp rho).bind (fun ct =>
        cryptid_decrypt ctx sk ct pp)) = .ok message := by
  have hm0 : ¬ message.length = 0 := by omega
  have hid0 : ¬ identity.length = 0 := by omega
  have hvb : validation_isPublicParametersValid pp = true := by
    simp [validation_isPublicParametersValid, hval]
  simp only [cryptid_extract, cryptid_encrypt, hm0, hid0, hvb, if_false,
    ite_false, not_true, Bool.not_eq_true, Except.bind]
  set hId := ctx.hashToPoint identity with hhId
  set rho0 := copyN ctx.hashLen rho with hrho0
  set t := ctx.sha_hash message with ht
  set l := ctx.hashToRange (copyN ctx.hashLen rho0 ++ copyN ctx.hashLen t) with hl
  set w := ctx.sha_hash (ctx.canonical (l * pairE pp.pointPpublic hId)) with hw0
  have hr : copyN ctx.hashLen rho0 = rho0 := by rw [hrho0, copyN_copyN]
  have hw : ctx.sha_hash (ctx.canonical (pairE (l * pp.pointP) (s * hId))) = w := by
    rw [hw0]
    congr 2
    simp only [pairE, hpp]
    ring
  obtain ⟨hrec, hchk⟩ := ibe_decrypt_encrypt_aux ctx (l * pp.pointP) (s * hId)
    rho0 message w hr hw
  simp only [cryptid_decrypt, hvb, not_true, Bool.not_eq_true, if_false, hchk, hrec,
    ← ht, ← hl]
  simp

/-- A small concrete hash context over q = 5 used to evaluate the theorems
on explicit inputs (any deterministic functions are admissible for the
modelled hash backends). -/
def ctx5 : HashContext 5 :=
  { hashLen := 2
    sha_hash := fun b => [b.length, 3]
    hashToRange := fun b => (b.foldl (· + ·) 0 : Nat)
    hashToPoint := fun b => (b.length : Nat)
    hashBytes := fun n k => List.replicate n (k.foldl (· + ·) 0 % 256)
    canonical := fun z => [z.val] }

/-- Concrete public parameters over q = 5 with master secret 2:
pointP = 1, pointPpublic = 2 · 1. -/
def pp5 : PublicParameters 5 := { pointP := 1, pointPpublic := 2 }

/-- Witness for C1: the round trip evaluated at q = 5, message [10],
identity [1], random tape [4, 9]. -/
theorem ibe_roundtrip_witness :
    (cryptid_extract ctx5 [1] pp5 2).bind (fun sk =>
      (cryptid_encrypt ctx5 [10] [1] pp5 [4, 9]).bind (fun ct =>
        cryptid_decrypt ctx5 sk ct pp5)) = .ok [10] :=
  ibe_roundtrip ctx5 pp5 2 [10] [1] [4, 9] (by decide) (by decide)
    (by decide) (by decide) (by decide)

/-- C6: with valid public parameters, cryptid_decrypt returns SUCCESS with
the recomputed plaintext exactly when the recomputed l·P equals the
ciphertext component U, and otherwise returns DECRYPTION_FAILED_ERROR and
no plaintext. -/
theorem ibe_decrypt_consistency {q : Nat} (ctx : HashContext q)
    (privateKey : ZMod q) (ct : CipherTextTuple q) (pp : PublicParameters q)
    (hval : validation_isPublicParametersValid pp = true) :
    (ct.cipherU = decryptCheckScalar ctx privateKey ct * pp.pointP →
      cryptid_decrypt ctx privateKey ct pp =
        .ok (decryptRecoveredMessage ctx privateKey ct)) ∧
    (ct.cipherU ≠ decryptCheckScalar ctx privateKey ct * pp.pointP →
      cryptid_decrypt ctx privateKey ct pp =
        .error .CRYPTID_DECRYPTION_FAILED_ERROR) := by
  constructor <;> intro h <;> simp [cryptid_decrypt, hval, h]

/-- Witness for C6: a concrete ciphertext failing the consistency check is
rejected with DECRYPTION_FAILED_ERROR. -/
theorem ibe_decrypt_consistency_witness :
    cryptid_decrypt ctx5 3 { cipherU := 0, cipherV := [], cipherW := [] } pp5 =
      .error .CRYPTID_DECRYPTION_FAILED_ERROR :=
  (ibe_decrypt_consistency ctx5 3
    { cipherU := 0, cipherV := [], cipherW := [] } pp5 (by decide)).2 (by decide)

/-!  BSW CP-ABE layer (the part of src/src/CryptID_ABE.c before the file
separator).  Points are again represented by their discrete logarithm in
ZMod q; the pairing-target values handled by the complex backend are kept
as an abstract type GT with the operations the code calls, since no claim
needs their algebra. -/

/-- Embedding of Lagrange_coefficient exactly as written in the source:
C int arithmetic with C integer division, which truncates toward zero,
embedded as Int with Int.div.  The source guard `&S[i] != NULL` is always
true and is dropped. -/
def Lagrange_coefficient (xi : Int) (S : List Int) (x : Int) : Int :=
  S.foldl (fun result si =>
    if si ≠ xi then result * ((x - si).tdiv (xi - si)) else result) 1

/-- Modular inverse by exhaustive search below the modulus: the smallest b
with b·a = 1 in ZMod q (0 when a is not invertible).  Used to express the
modular-arithmetic reading of the spec and to embed mpz_invert. -/
def modInverseSearch (q : Nat) (a : ZMod q) : ZMod q :=
  ((((List.range q).find?
    (fun b : Nat => decide ((b : ZMod q) * a = 1))).getD 0 : Nat) : ZMod q)

/-- The Lagrange coefficient at x as the specification words it: the
product over j in S, j different from i, of (x - j)/(i - j) computed in
the integers modulo q with modular inverses. -/
def Lagrange_coefficient_spec (q : Nat) (xi : ZMod q) (S : List (ZMod q))
    (x : ZMod q) : ZMod q :=
  S.foldl (fun result sj =>
    if sj ≠ xi then result * ((x - sj) * modInverseSearch q (xi - sj)) else result) 1

/-- C3: the source Lagrange_coefficient uses truncating integer division
and its value at i = 1, S = [1,2,3], x = 0 is 2, whereas the Lagrange
coefficient computed modulo q = 5 with modular inverses is 3; the two
disagree in ZMod 5. -/
theorem lagrange_integer_division_eval :
    Lagrange_coefficient 1 [1, 2, 3] 0 = 2 ∧
    Lagrange_coefficient_spec 5 1 [1, 2, 3] 0 = 3 ∧
    ((Lagrange_coefficient 1 [1, 2, 3] 0 : Int) : ZMod 5) ≠
      Lagrange_coefficient_spec 5 1 [1, 2, 3] 0 := by
  decide

/-- Access tree of the code (AccessTree.h absent from src): a leaf carries
an attribute label (attribute strings are modelled as atoms in Nat) and
the annotations Cy, CyA written by compute_tree; an internal node carries
its threshold (the field `value` of the C struct) and its children (the
non-NULL entries of the children array). -/
inductive AccessTree (q : Nat) where
  | leaf (attr : Nat) (Cy CyA : ZMod q)
  | node (threshold : Nat) (children : List (AccessTree q))

/-- Embedding of isLeaf. -/
def isLeaf {q : Nat} : AccessTree q → Bool
  | .leaf _ _ _ => true
  | .node _ _ => false

mutual
/-- Modelled from the spec: satisfyValue (implementation absent from src)
returns 1 when a leaf attribute belongs to the attribute list, and for an
internal node of threshold k when at least k children are satisfied. -/
def satisfyValue {q : Nat} (attrs : List Nat) : AccessTree q → Nat
  | .leaf a _ _ => if a ∈ attrs then 1 else 0
  | .node k cs => if k ≤ satisfyCount attrs cs then 1 else 0
/-- Number of satisfied children of an internal node. -/
def satisfyCount {q : Nat} (attrs : List Nat) : List (AccessTree q) → Nat
  | [] => 0
  | c :: rest => (if satisfyValue attrs c = 1 then 1 else 0) + satisfyCount attrs rest
end

/-- Modelled from the spec: operations of the backends the ABE code calls
whose implementations are absent from src, bundled: hashToPoint on
attribute labels (discrete-logarithm form), the fallible Tate pairing into
the abstract pairing-value type GT, the complex-field operations on GT and
the polynomial-share oracle of createPolynom/polynomSum (a random
polynomial with constant term s drawn for each internal node, addressed by
the node path; child i receives its value at i). -/
structure ABEContext (q : Nat) (GT : Type) where
  hashAttr : Nat → ZMod q
  pair : ZMod q → ZMod q → Except CryptidStatus GT
  modMul : GT → GT → GT
  modPow : GT → Nat → GT
  mulScalar : GT → Nat → GT
  inv : GT → Except CryptidStatus GT
  one : GT
  polyEval : List Nat → ZMod q → Nat → ZMod q

/-- Public key of the ABE scheme (PublicKey_ABE.h): generator g, h = β·g,
f = β⁻¹·g, e(g,g)^α, with the field order kept for the modular inversions
the code performs modulo ellipticCurve.fieldOrder. -/
structure PublicKey_ABE (q : Nat) (GT : Type) where
  fieldOrder : Nat
  g : ZMod q
  h : ZMod q
  f : ZMod q
  eggalpha : GT

/-- Master key of the ABE scheme: beta and g_alpha = α·g. -/
structure MasterKey_ABE (q : Nat) where
  beta : Nat
  g_alpha : ZMod q

/-- Secret key of the ABE scheme: D plus per-attribute components Dj, DjA
stored at the index of the attribute in the attributes list. -/
structure SecretKey_ABE (q : Nat) where
  D : ZMod q
  Dj : List (ZMod q)
  DjA : List (ZMod q)
  attributes : List Nat

/-- ABE ciphertext: the annotated tree, Ctilde and C = s·h. -/
structure EncryptedMessage_ABE (q : Nat) (GT : Type) where
  tree : AccessTree q
  Ctilde : GT
  C : ZMod q

/-- Modelled from the spec: mpz_invert (gmp backend) yields the inverse of
a modulo n, here by exhaustive search (0 when none exists). -/
def invMod (a n : Nat) : Nat :=
  ((List.range n).find? (fun b => a * b % n == 1)).getD 0

/-- Embedding of cryptid_keygen_ABE.  r is the random value drawn by
ABE_randomNumber for the key and rj i the one drawn for the i-th
attribute.  The source computes Gar by AFFINE_MULTIPLY(Gar, r, g_alpha),
that is r·(α·g); the line that would add g_alpha and r·g is commented out
in the source.  beta_inverse is mpz_invert(beta, fieldOrder), an inverse
modulo the field order p, after which D = beta_inverse·Gar.  For each
present attribute, Dj = rj·H(attr) + r·g and DjA = rj·g.  hashToPoint and
the scalar multiplications are modelled total (their failure statuses
belong to backends absent from src). -/
def cryptid_keygen_ABE {q : Nat} {GT : Type} (ctx : ABEContext q GT)
    (pk : PublicKey_ABE q GT) (mk : MasterKey_ABE q) (attributes : List Nat)
    (r : Nat) (rj : Nat → Nat) : SecretKey_ABE q :=
  let Gr := (r : ZMod q) * pk.g
  let Gar := (r : ZMod q) * mk.g_alpha
  let beta_inverse := invMod mk.beta pk.fieldOrder
  let GarBi := (beta_inverse : ZMod q) * Gar
  { D := GarBi
    Dj := (List.range attributes.length).map (fun i =>
      (rj i : ZMod q) * ctx.hashAttr (attributes.getD i 0) + Gr)
    DjA := (List.range attributes.length).map (fun i => (rj i : ZMod q) * pk.g)
    attributes := attributes }

/-- The secret-key component D as the specification words it:
β⁻¹·(α·g + r·g), the inverse of β taken modulo the group order q. -/
def keygen_spec_D (q : Nat) (alphaG : ZMod q) (beta r : Nat) (g : ZMod q) : ZMod q :=
  modInverseSearch q (beta : ZMod q) * (alphaG + (r : ZMod q) * g)

/-- Out-parameters of DecryptNode_ABE: the returned CryptidStatus, the
statusCode out-parameter (0 unless the function set it to 1) and the
Complex out-parameter (none while nothing was written through it). -/
structure NodeOut (GT : Type) where
  status : CryptidStatus
  code : Nat
  res : Option GT

mutual
/-- Embedding of DecryptNode_ABE.  Leaf: look the attribute up in the key;
when absent, fall through with statusCode 0 and return CRYPTID_SUCCESS;
when present, run the two pairings and the inverse, propagating their
failure statuses, and on success write e(Dj,Cy)·e(DjA,CyA)⁻¹ with
statusCode 1.  Internal node: recurse into every child, DISCARDING the
status each recursive call returns (the source ignores the return value at
the call site) and counting the children whose statusCode came back 1;
whenever that count is positive the node reports statusCode 1 — the
threshold is never consulted.  The combined value Fx the source then
computes is unobservable: the assignment `result = &Fx` overwrites the
local pointer instead of writing through it (and the computation itself
reads Sx[indexes[c]] with c equal to num, past the end of indexes), so the
res out-parameter stays unwritten; the function ends with
`return CRYPTID_SUCCESS` unconditionally. -/
def DecryptNode_ABE {q : Nat} {GT : Type} (ctx : ABEContext q GT)
    (sk : SecretKey_ABE q) : AccessTree q → NodeOut GT
  | .leaf a Cy CyA =>
    match sk.attributes.findIdx? (fun x => x == a) with
    | some found =>
      match ctx.pair (sk.Dj.getD found 0) Cy with
      | .error e => { status := e, code := 0, res := none }
      | .ok pairValue =>
        match ctx.pair (sk.DjA.getD found 0) CyA with
        | .error e => { status := e, code := 0, res := none }
        | .ok pairValueA =>
          match ctx.inv pairValueA with
          | .error e => { status := e, code := 0, res := none }
          | .ok pairValueA_inverse =>
            { status := .CRYPTID_SUCCESS, code := 1,
              res := some (ctx.modMul pairValue pairValueA_inverse) }
    | none => { status := .CRYPTID_SUCCESS, code := 0, res := none }
  | .node _k cs =>
    if 0 < DecryptNode_succCount ctx sk cs then
      { status := .CRYPTID_SUCCESS, code := 1, res := none }
    else
      { status := .CRYPTID_SUCCESS, code := 0, res := none }
/-- The num counter of DecryptNode_ABE: how many children came back with
statusCode 1. -/
def DecryptNode_succCount {q : Nat} {GT : Type} (ctx : ABEContext q GT)
    (sk : SecretKey_ABE q) : List (AccessTree q) → Nat
  | [] => 0
  | c :: rest =>
    (if (DecryptNode_ABE ctx sk c).code = 1 then 1 else 0) +
      DecryptNode_succCount ctx sk rest
end

/-- Embedding of cryptid_decrypt_ABE.  result is the caller-supplied
buffer (none models an empty one); the source checks satisfyValue, runs
DecryptNode_ABE on the root, computes Ctilde·A, e(C,D) and its inverse,
prints the decrypted complex value with gmp_printf and returns — it never
writes the recovered bytes through the result parameter, so the second
component of the returned pair is always the value passed in. -/
def cryptid_decrypt_ABE {q : Nat} {GT : Type} (ctx : ABEContext q GT)
    (result : Option Bytes) (encrypted : EncryptedMessage_ABE q GT)
    (sk : SecretKey_ABE q) : CryptidStatus × Option Bytes :=
  if satisfyValue sk.attributes encrypted.tree = 0 then
    (.CRYPTID_ILLEGAL_PRIVATE_KEY_ERROR, result)
  else
    if (DecryptNode_ABE ctx sk encrypted.tree).code = 0 then
      (.CRYPTID_ILLEGAL_PRIVATE_KEY_ERROR, result)
    else
      match ctx.pair encrypted.C sk.D with
      | .error e => (e, result)
      | .ok eCD =>
        match ctx.inv eCD with
        | .error e => (e, result)
        | .ok _eCD_inverse => (.CRYPTID_SUCCESS, result)

mutual
/-- Embedding of compute_tree: at an internal node draw the random
polynomial with constant term s (polyEval oracle, addressed by the node
path) and recurse on child i with its value at i (children are 1-indexed
as in the C loop); at a leaf write the annotations Cy = s·g and
CyA = s·H(attribute). -/
def compute_tree {q : Nat} {GT : Type} (ctx : ABEContext q GT)
    (pk : PublicKey_ABE q GT) (path : List Nat) (s : ZMod q) :
    AccessTree q → AccessTree q
  | .leaf a _ _ => .leaf a (s * pk.g) (s * ctx.hashAttr a)
  | .node k cs => .node k (compute_children ctx pk path s 1 cs)
/-- Recursion of compute_tree over the children array. -/
def compute_children {q : Nat} {GT : Type} (ctx : ABEContext q GT)
    (pk : PublicKey_ABE q GT) (path : List Nat) (s : ZMod q) (i : Nat) :
    List (AccessTree q) → List (AccessTree q)
  | [] => []
  | c :: rest =>
    compute_tree ctx pk (i :: path) (ctx.polyEval path s i) c ::
      compute_children ctx pk path s (i + 1) rest
end

/-- Embedding of the mpz_import performed by cryptid_encrypt_ABE: every
message byte is first widened to an 8-byte word (values[i] = (long)
message[i]) and the words are imported most-significant first. -/
def bytesToWords (msg : Bytes) : Nat :=
  msg.foldl (fun acc b => acc * 2 ^ 64 + b) 0

/-- Embedding of cryptid_encrypt_ABE.  The three pointer arguments are
Options (none models NULL); s is the random value drawn by
random_mpzInRange.  The guard sequence of the source: message NULL gives
CRYPTID_MESSAGE_NULL_ERROR, then messageLength zero gives
CRYPTID_MESSAGE_LENGTH_ERROR, then publickey NULL and accessTree NULL also
give CRYPTID_MESSAGE_NULL_ERROR. -/
def cryptid_encrypt_ABE {q : Nat} {GT : Type} (ctx : ABEContext q GT)
    (message : Option Bytes) (messageLength : Nat)
    (publickey : Option (PublicKey_ABE q GT))
    (accessTree : Option (AccessTree q)) (s : Nat) :
    Except CryptidStatus (EncryptedMessage_ABE q GT) :=
  match message with
  | none => .error .CRYPTID_MESSAGE_NULL_ERROR
  | some msg =>
    if messageLength = 0 then .error .CRYPTID_MESSAGE_LENGTH_ERROR
    else
      match publickey with
      | none => .error .CRYPTID_MESSAGE_NULL_ERROR
      | some pk =>
        match accessTree with
        | none => .error .CRYPTID_MESSAGE_NULL_ERROR
        | some tree =>
          let M := bytesToWords msg
          let tree2 := compute_tree ctx pk [] (s : ZMod q) tree
          let Ctilde := ctx.mulScalar (ctx.modPow pk.eggalpha s) M
          let C := (s : ZMod q) * pk.h
          .ok { tree := tree2, Ctilde := Ctilde, C := C }

/-- A small concrete ABE context over q = 7 with pairing values in ZMod 7
(any instantiation of the modelled backends is admissible; the pairing and
the inverse are total here). -/
def ctxA : ABEContext 7 (ZMod 7) :=
  { hashAttr := fun a => (a : ZMod 7)
    pair := fun a b => .ok (a * b)
    modMul := fun a b => a * b
    modPow := fun g n => g ^ n
    mulScalar := fun g n => g * (n : ZMod 7)
    inv := fun x => .ok x
    one := 1
    polyEval := fun _ s i => s + (i : ZMod 7) }

/-- Concrete ABE public key over q = 7 with field order 11. -/
def pkA : PublicKey_ABE 7 (ZMod 7) :=
  { fieldOrder := 11, g := 1, h := 1, f := 1, eggalpha := 1 }

/-- Concrete ABE master key: beta = 1, g_alpha = 2 (so alpha = 2 over g = 1). -/
def mkA : MasterKey_ABE 7 := { beta := 1, g_alpha := 2 }

/-- Concrete AND tree: one internal node of threshold 2 with leaf
attributes 1 and 2. -/
def treeA : AccessTree 7 :=
  .node 2 [.leaf 1 1 1, .leaf 2 1 1]

/-- Key holding only attribute 1 (does not satisfy treeA). -/
def skOne : SecretKey_ABE 7 :=
  { D := 1, Dj := [1], DjA := [1], attributes := [1] }

/-- Key holding attributes 1 and 2 (satisfies treeA). -/
def skBoth : SecretKey_ABE 7 :=
  { D := 1, Dj := [1, 1], DjA := [1, 1], attributes := [1, 2] }

/-- Concrete ABE ciphertext over treeA. -/
def encA : EncryptedMessage_ABE 7 (ZMod 7) :=
  { tree := treeA, Ctilde := 1, C := 1 }

/-- C9: for every internal access-tree node, DecryptNode_ABE returns the
status CRYPTID_SUCCESS whatever the children return — a non-success status
of a recursive call is discarded — and failure is communicated only by the
statusCode out-parameter, which is 1 exactly when at least one child came
back with statusCode 1 and 0 otherwise. -/
theorem decryptNode_internal_status {q : Nat} {GT : Type} (ctx : ABEContext q GT)
    (sk : SecretKey_ABE q) (k : Nat) (cs : List (AccessTree q)) :
    (DecryptNode_ABE ctx sk (.node k cs)).status = .CRYPTID_SUCCESS ∧
    (DecryptNode_ABE ctx sk (.node k cs)).code =
      (if 0 < DecryptNode_succCount ctx sk cs then 1 else 0) := by
  constructor <;> rw [DecryptNode_ABE] <;> split <;> simp

/-- C4: DecryptNode_ABE ignores the threshold of an internal node: on the
2-of-2 AND tree treeA with a key holding only attribute 1, exactly one
child decrypts (succCount = 1 below the threshold 2), yet the node comes
back with statusCode 1, where the claim requires failure. -/
theorem decryptNode_threshold_ignored :
    (DecryptNode_ABE ctxA skOne treeA).code = 1 ∧
    DecryptNode_succCount ctxA skOne [.leaf 1 1 1, .leaf 2 1 1] = 1 ∧
    (2 : Nat) ≤ 2 := by
  have h1 : DecryptNode_ABE ctxA skOne (.leaf 1 1 1) =
      { status := .CRYPTID_SUCCESS, code := 1, res := some 1 } := by
    rw [DecryptNode_ABE]
    simp [skOne, ctxA]
  have h2 : DecryptNode_ABE ctxA skOne (.leaf 2 1 1) =
      { status := .CRYPTID_SUCCESS, code := 0, res := none } := by
    rw [DecryptNode_ABE]
    simp [skOne, ctxA]
  have hc : DecryptNode_succCount ctxA skOne [.leaf 1 1 1, .leaf 2 1 1] = 1 := by
    rw [DecryptNode_succCount, DecryptNode_succCount, DecryptNode_succCount, h1, h2]
    simp
  refine ⟨?_, hc, le_refl 2⟩
  rw [treeA, DecryptNode_ABE, hc]
  simp

/-- C2: cryptid_decrypt_ABE never writes through its result out-parameter:
for all inputs the buffer comes back exactly as it was passed in; in
particular, on the satisfied concrete instance (AND tree of attributes 1
and 2, key holding both) the call returns CRYPTID_SUCCESS while the result
buffer is still empty — no recovered message bytes are delivered. -/
theorem abe_decrypt_result_never_written :
    (∀ (q : Nat) (GT : Type) (ctx : ABEContext q GT) (result : Option Bytes)
      (enc : EncryptedMessage_ABE q GT) (sk : SecretKey_ABE q),
        (cryptid_decrypt_ABE ctx result enc sk).2 = result) ∧
    cryptid_decrypt_ABE ctxA none encA skBoth = (.CRYPTID_SUCCESS, none) := by
  constructor
  · intro q GT ctx result enc sk
    unfold cryptid_decrypt_ABE
    split
    · rfl
    · split
      · rfl
      · split
        · rfl
        · split <;> rfl
  · have h1 : DecryptNode_ABE ctxA skBoth (.leaf 1 1 1) =
        { status := .CRYPTID_SUCCESS, code := 1, res := some 1 } := by
      rw [DecryptNode_ABE]
      simp [skBoth, ctxA]
    have h2 : DecryptNode_ABE ctxA skBoth (.leaf 2 1 1) =
        { status := .CRYPTID_SUCCESS, code := 1, res := some 1 } := by
      rw [DecryptNode_ABE]
      simp [skBoth, ctxA]
    have hroot : (DecryptNode_ABE ctxA skBoth treeA).code = 1 := by
      rw [treeA, DecryptNode_ABE]
      rw [DecryptNode_succCount, DecryptNode_succCount, DecryptNode_succCount, h1, h2]
      simp
    have hsat : satisfyValue skBoth.attributes encA.tree = 1 := by
      rw [encA, treeA]
      rw [satisfyValue, satisfyCount, satisfyCount, satisfyCount,
        satisfyValue, satisfyValue]
      simp [skBoth]
    unfold cryptid_decrypt_ABE
    rw [show encA.tree = treeA from rfl] at hsat ⊢
    rw [hsat, hroot]
    simp [ctxA, encA, skBoth]

/-- C5: on concrete inputs alpha = 2 (g_alpha = 2·g with g = 1), beta = 1,
r = 3 over q = 7, cryptid_keygen_ABE computes D = beta⁻¹·(r·(alpha·g)) = 6,
whereas the claimed formula beta⁻¹·(alpha·g + r·g) gives 5; the source
multiplies g_alpha by r (the addition of g_alpha and r·g is commented
out). -/
theorem keygen_D_divergence :
    (cryptid_keygen_ABE ctxA pkA mkA [1] 3 (fun _ => 4)).D = 6 ∧
    keygen_spec_D 7 2 1 3 1 = 5 ∧
    ((6 : ZMod 7) ≠ 5) := by
  refine ⟨?_, by decide, by decide⟩
  rw [cryptid_keygen_ABE]
  simp [mkA, pkA, invMod]
  decide

/-- C10: the guard sequence of cryptid_encrypt_ABE maps three distinct
failure cases — message NULL, publickey NULL, accessTree NULL — to the one
status CRYPTID_MESSAGE_NULL_ERROR, so the status does not identify the
missing argument, while an empty message (with message non-NULL) is the
only case yielding CRYPTID_MESSAGE_LENGTH_ERROR. -/
theorem encrypt_ABE_null_statuses {q : Nat} {GT : Type} (ctx : ABEContext q GT)
    (msg : Bytes) (mlen : Nat) (pk : PublicKey_ABE q GT) (t : AccessTree q)
    (s : Nat) :
    (∀ pko tro, cryptid_encrypt_ABE ctx none mlen pko tro s =
      .error .CRYPTID_MESSAGE_NULL_ERROR) ∧
    (cryptid_encrypt_ABE ctx (some msg) 0 (some pk) (some t) s =
      .error .CRYPTID_MESSAGE_LENGTH_ERROR) ∧
    (mlen ≠ 0 → cryptid_encrypt_ABE ctx (some msg) mlen none (some t) s =
      .error .CRYPTID_MESSAGE_NULL_ERROR) ∧
    (mlen ≠ 0 → cryptid_encrypt_ABE ctx (some msg) mlen (some pk) none s =
      .error .CRYPTID_MESSAGE_NULL_ERROR) ∧
    (∀ pko tro, cryptid_encrypt_ABE ctx (some msg) mlen pko tro s =
      .error .CRYPTID_MESSAGE_LENGTH_ERROR → mlen = 0) := by
  refine ⟨fun pko tro => rfl, by simp [cryptid_encrypt_ABE], ?_, ?_, ?_⟩
  · intro h
    simp [cryptid_encrypt_ABE, h]
  · intro h
    simp [cryptid_encrypt_ABE, h]
  · intro pko tro h
    by_contra hne
    simp [cryptid_encrypt_ABE, hne] at h
    cases pko <;> cases tro <;> simp at h

/-- Witness for C10: the three NULL cases and the empty-message case
evaluated on concrete inputs over q = 7. -/
theorem encrypt_ABE_null_statuses_witness :
    cryptid_encrypt_ABE ctxA none 3 (some pkA) (some treeA) 0 =
      .error .CRYPTID_MESSAGE_NULL_ERROR ∧
    cryptid_encrypt_ABE ctxA (some [1]) 0 (some pkA) (some treeA) 0 =
      .error .CRYPTID_MESSAGE_LENGTH_ERROR ∧
    cryptid_encrypt_ABE ctxA (some [1]) 1 none (some treeA) 0 =
      .error .CRYPTID_MESSAGE_NULL_ERROR ∧
    cryptid_encrypt_ABE ctxA (some [1]) 1 (some pkA) none 0 =
      .error .CRYPTID_MESSAGE_NULL_ERROR :=
  ⟨(encrypt_ABE_null_statuses ctxA [1] 3 pkA treeA 0).1 (some pkA) (some treeA),
   (encrypt_ABE_null_statuses ctxA [1] 3 pkA treeA 0).2.1,
   (encrypt_ABE_null_statuses ctxA [1] 1 pkA treeA 0).2.2.1 (by decide),
   (encrypt_ABE_null_statuses ctxA [1] 1 pkA treeA 0).2.2.2.1 (by decide)⟩

/-!  Setup functions.  cryptid_setup (IBE) and cryptid_setup_ABE share the
same opening: draw a Solinas prime q, then loop drawing r until
p = 12·r·q - 1 is (probably) prime, then loop drawing random affine
points P-prime until P = 12r·P-prime is not the point at infinity.  The
two do/while loops carry no attempt counter in the source; the embedding
gives each a fuel parameter and returns none when the loop is still
running after that many iterations.  Points of the full curve group
(order p + 1 = 12·r·q, modelled cyclic as the spec describes the
supersingular setting) are represented by a natural-number discrete
logarithm: a random point is a stream value x, scalar multiplication is
multiplication, and 12r·x is the point at infinity exactly when its
logarithm is divisible by the group order 12·r·q. -/

/-- Modelled from the spec: validation_isProbablePrime (implementation
absent from src) decides primality; embedded as exact trial division so
that it evaluates inside the kernel. -/
def validation_isProbablePrime (n : Nat) : Bool :=
  decide (2 ≤ n) && (List.range (n - 2)).all (fun k => n % (k + 2) != 0)

/-- Modelled from the spec: the random source of the setup functions.
solinasResult is the outcome of the bounded random_solinasPrime call
(either a Solinas prime or SOLINAS_GENERATION_FAILED after 100 tries),
rStream the successive outputs of random_mpzOfLength, pointStream the
successive outcomes of the bounded random_affinePoint calls (a point in
discrete-logarithm form, or POINT_GENERATION_FAILED past its cap), sRand
the raw value behind random_mpzInRange for the master secret. -/
structure SetupTape where
  solinasResult : Except CryptidStatus Nat
  rStream : Nat → Nat
  pointStream : Nat → Except CryptidStatus Nat
  sRand : Nat

/-- The do/while loop of both setups searching r with p = 12·r·q - 1
probably prime, with fuel; idx is the position on the random stream. -/
def primeSearch (q : Nat) (rStream : Nat → Nat) : Nat → Nat → Option (Nat × Nat)
  | 0, _ => none
  | fuel + 1, idx =>
    let r := rStream idx
    let p := 12 * r * q - 1
    if validation_isProbablePrime p then some (r, p)
    else primeSearch q rStream fuel (idx + 1)

/-- The do/while loop of both setups drawing a random point, multiplying
it by 12r and retrying while the result is the point at infinity; a
failure of random_affinePoint is returned immediately (the source returns
from inside the loop). -/
def pointSearch (r q : Nat) (stream : Nat → Except CryptidStatus Nat) :
    Nat → Nat → Option (Except CryptidStatus Nat)
  | 0, _ => none
  | fuel + 1, idx =>
    match stream idx with
    | .error e => some (.error e)
    | .ok x =>
      let pointP := 12 * r * x
      if pointP % (12 * r * q) = 0 then pointSearch r q stream fuel (idx + 1)
      else some (.ok pointP)

/-- Outputs of cryptid_setup: the public parameters and the master secret. -/
structure SetupOut where
  q : Nat
  p : Nat
  pointP : Nat
  pointPpublic : Nat
  masterSecret : Nat
  deriving DecidableEq

/-- Embedding of cryptid_setup (IBE): Solinas prime, prime-search loop,
point-search loop, master secret s in [2, q), P_pub = s·P.  The outer
Option is the fuel: none means one of the two unbounded loops was still
running after the given number of iterations. -/
def cryptid_setup (tape : SetupTape) (fuelPrime fuelPoint : Nat) :
    Option (Except CryptidStatus SetupOut) :=
  match tape.solinasResult with
  | .error e => some (.error e)
  | .ok q =>
    match primeSearch q tape.rStream fuelPrime 0 with
    | none => none
    | some (r, p) =>
      match pointSearch r q tape.pointStream fuelPoint 0 with
      | none => none
      | some (.error e) => some (.error e)
      | some (.ok pointP) =>
        let s := tape.sRand % (q - 2) + 2
        some (.ok ⟨q, p, pointP, s * pointP, s⟩)

/-- The publickey out-parameter of cryptid_setup_ABE with one Option per
field: none records that the field was never assigned. -/
structure PublicKeyOut (GT : Type) where
  ellipticCurve : Option Nat := none
  g : Option Nat := none
  h : Option Nat := none
  f : Option Nat := none
  q : Option Nat := none
  hashFunctionSet : Bool := false
  eggalpha : Option GT := none
  deriving DecidableEq

/-- The masterkey out-parameter of cryptid_setup_ABE. -/
structure MasterKeyOut where
  beta : Option Nat := none
  g_alpha : Option Nat := none
  deriving DecidableEq

/-- Modelled from the spec: environment of cryptid_setup_ABE — the random
tape, the raw randoms behind alpha and beta, and the fallible backends the
function calls (AFFINE_MULTIPLY_IMPL, tate_performPairing, complex_modPow;
implementations absent from src; the spec allows the pairing to fail on
degenerate input). -/
structure ABESetupEnv (GT : Type) where
  tape : SetupTape
  alphaRand : Nat
  betaRand : Nat
  affineMultiply : Nat → Nat → Except CryptidStatus Nat
  pairing : Nat → Nat → Except CryptidStatus GT
  modPow : GT → Nat → GT

/-- Embedding of cryptid_setup_ABE with the out-parameters made explicit.
The field assignments happen in source order: publickey.ellipticCurve and
publickey.g are written before the scalar multiplication for h, h before
f, masterkey.beta before the multiplication for g_alpha, then publickey.q
and the hash function, and finally — only after the pairing succeeded —
publickey.eggalpha; every failure between returns the partially filled
records exactly as the source leaves its out-parameters. -/
def setup_ABE_body (GT : Type) (env : ABESetupEnv GT) (q p pointP : Nat)
    (pk0 : PublicKeyOut GT) (mk0 : MasterKeyOut) :
    CryptidStatus × PublicKeyOut GT × MasterKeyOut :=
  let alpha := env.alphaRand % (p - 1)
  let beta := env.betaRand % (p - 1)
  let pk1 := { pk0 with ellipticCurve := some p, g := some pointP }
  match env.affineMultiply beta pointP with
  | .error e => (e, pk1, mk0)
  | .ok hval =>
    let pk2 := { pk1 with h := some hval }
    let beta_inverse := invMod beta p
    match env.affineMultiply beta_inverse pointP with
    | .error e => (e, pk2, mk0)
    | .ok fval =>
      let pk3 := { pk2 with f := some fval }
      let mk1 := { mk0 with beta := some beta }
      match env.affineMultiply alpha pointP with
      | .error e => (e, pk3, mk1)
      | .ok galpha =>
        let mk2 := { mk1 with g_alpha := some galpha }
        let pk4 := { pk3 with q := some q, hashFunctionSet := true }
        match env.pairing pointP pointP with
        | .error e => (e, pk4, mk2)
        | .ok pairValue =>
          let pk5 := { pk4 with eggalpha := some (env.modPow pairValue alpha) }
          (.CRYPTID_SUCCESS, pk5, mk2)

/-- Embedding of cryptid_setup_ABE: the two rejection loops (with fuel),
then the straight-line body. -/
def cryptid_setup_ABE (GT : Type) (env : ABESetupEnv GT)
    (fuelPrime fuelPoint : Nat) (pk0 : PublicKeyOut GT) (mk0 : MasterKeyOut) :
    Option (CryptidStatus × PublicKeyOut GT × MasterKeyOut) :=
  match env.tape.solinasResult with
  | .error e => some (e, pk0, mk0)
  | .ok q =>
    match primeSearch q env.tape.rStream fuelPrime 0 with
    | none => none
    | some (r, p) =>
      match pointSearch r q env.tape.pointStream fuelPoint 0 with
      | none => none
      | some (.error e) => some (e, pk0, mk0)
      | some (.ok pointP) => some (setup_ABE_body GT env q p pointP pk0 mk0)

/-- Non-termination of cryptid_setup on a tape: whatever fuel the two
rejection loops receive, the function is still looping. -/
def setupStalls (tape : SetupTape) : Prop :=
  ∀ fuelPrime fuelPoint, cryptid_setup tape fuelPrime fuelPoint = none

/-- A tape on which the prime-search loop of setup never exits: q = 5 and
the random stream always returns r = 2, for which 12·r·q - 1 = 119 = 7·17
is composite. -/
def tapeStalling : SetupTape :=
  { solinasResult := .ok 5
    rStream := fun _ => 2
    pointStream := fun _ => .ok 1
    sRand := 0 }

/-- C7 counterexample: on tapeStalling the prime-search do/while loop of
cryptid_setup runs forever — the loop carries no attempt counter, so setup
does not always terminate with SUCCESS or an error. -/
theorem setup_prime_loop_stalls : setupStalls tapeStalling := by
  have hps : ∀ fuel idx, primeSearch 5 (fun _ => 2) fuel idx = none := by
    intro fuel
    induction fuel with
    | zero => intro idx; rfl
    | succ n ih =>
      intro idx
      rw [primeSearch]
      rw [if_neg (by decide)]
      exact ih (idx + 1)
  intro f1 f2
  simp only [cryptid_setup, tapeStalling]
  rw [hps f1 0]

/-- Exiting the prime-search loop: if the stream value k steps ahead makes
12·r·q - 1 pass the primality test, fuel k + 1 suffices. -/
theorem primeSearch_isSome (q : Nat) (rs : Nat → Nat) :
    ∀ (k idx : Nat),
      validation_isProbablePrime (12 * rs (idx + k) * q - 1) = true →
      (primeSearch q rs (k + 1) idx).isSome := by
  intro k
  induction k with
  | zero =>
    intro idx h
    rw [Nat.add_zero] at h
    rw [primeSearch, if_pos h]
    rfl
  | succ n ih =>
    intro idx h
    rw [primeSearch]
    by_cases hc : validation_isProbablePrime (12 * rs idx * q - 1) = true
    · rw [if_pos hc]; rfl
    · rw [if_neg hc]
      have := ih (idx + 1) (by
        have : idx + 1 + n = idx + (n + 1) := by omega
        rw [this]; exact h)
      exact this

/-- Any r the prime search returns is one of the stream values. -/
theorem primeSearch_r_mem (q : Nat) (rs : Nat → Nat) :
    ∀ (fuel idx r p : Nat), primeSearch q rs fuel idx = some (r, p) →
      ∃ j, r = rs j := by
  intro fuel
  induction fuel with
  | zero => intro idx r p h; simp [primeSearch] at h
  | succ n ih =>
    intro idx r p h
    rw [primeSearch] at h
    by_cases hc : validation_isProbablePrime (12 * rs idx * q - 1) = true
    · rw [if_pos hc] at h
      exact ⟨idx, by injection h with h2; injection h2 with h3 h4; exact h3.symm⟩
    · rw [if_neg hc] at h
      exact ih (idx + 1) r p h

/-- A stream position at which the point-search loop must exit: either
random_affinePoint fails there (the loop returns that status), or it
yields a point whose discrete logarithm is not a multiple of q (after
multiplication by 12r the point is not at infinity). -/
def goodPointAt (stream : Nat → Except CryptidStatus Nat) (q idx : Nat) : Prop :=
  (∃ e, stream idx = .error e) ∨ (∃ x, stream idx = .ok x ∧ ¬ x % q = 0)

/-- Exiting the point-search loop: with positive r and q, a good stream
position k steps ahead bounds the loop by k + 1 iterations. -/
theorem pointSearch_isSome (r q : Nat) (stream : Nat → Except CryptidStatus Nat)
    (hr : 1 ≤ r) :
    ∀ (k idx : Nat), goodPointAt stream q (idx + k) →
      (pointSearch r q stream (k + 1) idx).isSome := by
  have key : ∀ x, ¬ x % q = 0 → ¬ (12 * r * x) % (12 * r * q) = 0 := by
    intro x hx hmod
    apply hx
    have hdvd : 12 * r * q ∣ 12 * r * x := Nat.dvd_of_mod_eq_zero hmod
    have h12 : 0 < 12 * r := by positivity
    obtain ⟨c, rfl⟩ := (Nat.mul_dvd_mul_iff_left h12).mp hdvd
    exact Nat.mul_mod_right q c
  intro k
  induction k with
  | zero =>
    intro idx h
    rw [Nat.add_zero] at h
    rw [pointSearch]
    rcases h with ⟨e, he⟩ | ⟨x, hx, hxq⟩
    · rw [he]; rfl
    · rw [hx]
      simp only
      rw [if_neg (key x hxq)]
      rfl
  | succ n ih =>
    intro idx h
    rw [pointSearch]
    match hs : stream idx with
    | .error e => rfl
    | .ok x =>
      simp only
      by_cases hc : (12 * r * x) % (12 * r * q) = 0
      · rw [if_pos hc]
        refine ih (idx + 1) ?_
        have harith : idx + 1 + n = idx + (n + 1) := by omega
        rw [harith]
        exact h
      · rw [if_neg hc]
        rfl

/-- C7 (amended): the subroutines random_solinasPrime, random_affinePoint
and hashToPoint carry a 100-attempt cap (they enter the embedding as the
prepaid outcomes solinasResult and pointStream), but the prime-search and
point-search do/while loops inside the setups are unbounded; both setups
terminate — with SUCCESS or an error — provided the random stream offers a
position making p probably prime and a position where the point draw
either fails or escapes the point at infinity. -/
theorem setup_terminates_of_good_stream (GT : Type) (env : ABESetupEnv GT)
    (qv n m : Nat) (pk0 : PublicKeyOut GT) (mk0 : MasterKeyOut)
    (hsol : env.tape.solinasResult = .ok qv)
    (hR : ∀ i, 1 ≤ env.tape.rStream i)
    (hp : validation_isProbablePrime (12 * env.tape.rStream n * qv - 1) = true)
    (hpt : goodPointAt env.tape.pointStream qv m) :
    (∃ f1 f2, (cryptid_setup env.tape f1 f2).isSome) ∧
    (∃ f1 f2, (cryptid_setup_ABE GT env f1 f2 pk0 mk0).isSome) := by
  have hps : (primeSearch qv env.tape.rStream (n + 1) 0).isSome := by
    refine primeSearch_isSome qv env.tape.rStream n 0 ?_
    rw [Nat.zero_add]
    exact hp
  obtain ⟨rp, hrp⟩ := Option.isSome_iff_exists.mp hps
  obtain ⟨r, p⟩ := rp
  obtain ⟨j, hj⟩ := primeSearch_r_mem qv env.tape.rStream (n + 1) 0 r p hrp
  have hr1 : 1 ≤ r := by rw [hj]; exact hR j
  have hpt2 : (pointSearch r qv env.tape.pointStream (m + 1) 0).isSome := by
    refine pointSearch_isSome r qv env.tape.pointStream hr1 m 0 ?_
    rw [Nat.zero_add]
    exact hpt
  obtain ⟨res2, hres2⟩ := Option.isSome_iff_exists.mp hpt2
  constructor
  · refine ⟨n + 1, m + 1, ?_⟩
    unfold cryptid_setup
    simp only [hsol]
    simp only [hrp]
    simp only [hres2]
    rcases res2 with e | pointP <;> rfl
  · refine ⟨n + 1, m + 1, ?_⟩
    unfold cryptid_setup_ABE
    simp only [hsol]
    simp only [hrp]
    simp only [hres2]
    rcases res2 with e | pointP <;> rfl

/-- A concrete good tape: q = 5, the stream always returns r = 3 (and
12·3·5 - 1 = 179 is prime), the point stream returns the logarithm 1
(not a multiple of 5). -/
def envGood : ABESetupEnv Nat :=
  { tape :=
      { solinasResult := .ok 5
        rStream := fun _ => 3
        pointStream := fun _ => .ok 1
        sRand := 0 }
    alphaRand := 1
    betaRand := 1
    affineMultiply := fun k x => .ok (k * x)
    pairing := fun _ _ => .ok 0
    modPow := fun g _ => g }

/-- Witness for the amended C7: on envGood both setups terminate. -/
theorem setup_terminates_of_good_stream_witness :
    (∃ f1 f2, (cryptid_setup envGood.tape f1 f2).isSome) ∧
    (∃ f1 f2, (cryptid_setup_ABE Nat envGood f1 f2 {} {}).isSome) :=
  setup_terminates_of_good_stream Nat envGood 5 0 0 {} {} rfl
    (fun _ => (by decide : (1 : Nat) ≤ 3)) (by decide)
    (Or.inr ⟨1, rfl, by decide⟩)

/-- An environment identical to envGood except that the Tate pairing fails
(the spec allows the pairing to fail on degenerate input); everything
before the pairing call succeeds on the first try. -/
def envPairFail : ABESetupEnv Nat :=
  { tape :=
      { solinasResult := .ok 5
        rStream := fun _ => 3
        pointStream := fun _ => .ok 1
        sRand := 0 }
    alphaRand := 1
    betaRand := 1
    affineMultiply := fun k x => .ok (k * x)
    pairing := fun _ _ => .error .CRYPTID_PAIRING_FAILED_ERROR
    modPow := fun g _ => g }

/-- C8: on the pairing-failure path, cryptid_setup_ABE returns a
non-success status while the publickey out-parameter already carries the
assigned ellipticCurve, g, h, f and q fields and the masterkey carries
beta and g_alpha — the out-parameters start empty and come back partially
filled rather than unmodified. -/
theorem setup_ABE_partial_output_eval :
    cryptid_setup_ABE Nat envPairFail 1 1 {} {} =
      some (.CRYPTID_PAIRING_FAILED_ERROR,
        { ellipticCurve := some 179, g := some 36, h := some 36, f := some 36,
          q := some 5, hashFunctionSet := true, eggalpha := none },
        { beta := some 1, g_alpha := some 36 }) ∧
    ({} : PublicKeyOut Nat) =
      { ellipticCurve := none, g := none, h := none, f := none, q := none,
        hashFunctionSet := false, eggalpha := none } := by
  exact ⟨by decide, by decide⟩

end CryptidModel
